import Mathlib

/-!
Verification of the media ingestion/storage subsystem of the EchoContent
blog backend (Go).  The Go sources under `internal/media` are shallowly
embedded: Go strings are modelled as `List Char`, raw byte content as
`List Nat`, the media registry / usage table / filesystem as an explicit
`St` state record, and external standard-library facilities (MD5, MIME
sniffing, image decode/encode, the current date) as fields of an
environment record `Env`.  Fallible operations return `Except MediaError`.
Chinese message strings are kept verbatim from the source.
-/

/-- A Go string, modelled as its character list. -/
abbrev GoStr := List Char

/-- Shorthand turning a Lean string literal into the `GoStr` model. -/
def str (s : String) : GoStr := s.data

/-- Raw byte content (a Go `[]byte`); byte values are never computed with,
so plain `Nat` entries suffice. -/
abbrev Bytes := List Nat

/-- Equality of `Except` values is decidable when it is on both sides;
needed so concrete runs can be checked by `decide`. -/
instance {ε α : Type _} [DecidableEq ε] [DecidableEq α] : DecidableEq (Except ε α) := fun a b =>
  match a, b with
  | .error e₁, .error e₂ =>
    match decEq e₁ e₂ with
    | isTrue h => isTrue (by rw [h])
    | isFalse h => isFalse (by intro hc; cases hc; exact h rfl)
  | .ok a₁, .ok a₂ =>
    match decEq a₁ a₂ with
    | isTrue h => isTrue (by rw [h])
    | isFalse h => isFalse (by intro hc; cases hc; exact h rfl)
  | .error _, .ok _ => isFalse (by intro hc; cases hc)
  | .ok _, .error _ => isFalse (by intro hc; cases hc)

/-! ### Go standard-library string/path helpers used by the media code -/

/-- Model of `strings.HasPrefix(s, p)` (argument order: subject first). -/
def strStartsWith : GoStr → GoStr → Bool
  | _, [] => true
  | [], _ :: _ => false
  | c :: s, p :: ps => c = p && strStartsWith s ps

/-- Model of `strings.TrimPrefix(s, p)`: drop `p` from the front when it is there. -/
def strTrimStart (s p : GoStr) : GoStr :=
  if strStartsWith s p then s.drop p.length else s

/-- Model of `strings.HasSuffix(s, suf)`. -/
def strEndsWith (s suf : GoStr) : Bool :=
  strStartsWith s.reverse suf.reverse

/-- Model of `strings.TrimSuffix(s, suf)`. -/
def strTrimEnd (s suf : GoStr) : GoStr :=
  if strEndsWith s suf then s.take (s.length - suf.length) else s

/-- Model of `strings.Contains(s, sub)`. -/
def strContains : GoStr → GoStr → Bool
  | [], sub => sub.isEmpty
  | c :: rest, sub => strStartsWith (c :: rest) sub || strContains rest sub

/-- Helper for `filepath.Ext`: walk the reversed path accumulating the
candidate extension; stop at a path separator. -/
def extFromRev : GoStr → GoStr → GoStr
  | [], _ => []
  | c :: rest, acc =>
    if c = '/' then []
    else if c = '.' then c :: acc
    else extFromRev rest (c :: acc)

/-- Model of `filepath.Ext(path)`: the suffix beginning at the final dot of the last
path element (dot included), `""` when there is none. -/
def pathExt (p : GoStr) : GoStr := extFromRev p.reverse []

/-- Model of `filepath.Base(path)` for the non-empty, no-trailing-slash paths the
media code builds: the part after the last separator. -/
def pathBase (p : GoStr) : GoStr :=
  (p.reverse.takeWhile (fun c => c ≠ '/')).reverse

/-- Model of `filepath.Dir(path)` for the same class of paths: everything before the
last separator (`"."` when there is no separator). -/
def pathDir (p : GoStr) : GoStr :=
  match p.reverse.dropWhile (fun c => c ≠ '/') with
  | [] => str "."
  | _ :: rest => rest.reverse

/-- Model of `filepath.Join` for the non-empty, already-clean components the media
code passes (no `..`/`.` segments, no empty or slash-terminated parts), in
which case Go's `Clean` is the identity and `Join` is plain `/`-joining. -/
def goJoin : List GoStr → GoStr
  | [] => []
  | [p] => p
  | p :: ps => p ++ '/' :: goJoin ps

/-! ### Data model (`internal/media/model/media.go`)

`CreatedAt`/`UpdatedAt` timestamps and the preloaded `Uploader` association
carry no information used by any claim and are omitted from the record. -/

/-- Model of `model.User`, restricted to the fields the media code reads. -/
structure User where
  id : Nat
  role : GoStr
  deriving Repr, DecidableEq

/-- Model of `User.IsAdmin` (`internal/blog`... user model): role equality. -/
def User.goIsAdmin (u : User) : Bool := u.role = str "admin"

/-- Model of `model.MediaFile` (sizes are non-negative in every reachable state, so
`FileSize int64` is modelled as `Nat`). -/
structure MediaFile where
  id : Nat
  filename : GoStr
  storagePath : GoStr
  fileSize : Nat
  mimeType : GoStr
  fileType : GoStr
  width : Option Nat
  height : Option Nat
  duration : Option Nat
  hash : GoStr
  alt : GoStr
  caption : GoStr
  uploaderID : Option Nat
  status : GoStr
  isPublic : Bool
  deriving Repr, DecidableEq

/-- Model of `model.MediaUsage`. -/
structure MediaUsage where
  id : Nat
  mediaID : Nat
  usageType : GoStr
  targetID : Option Nat
  uploaderID : Nat
  deriving Repr, DecidableEq

/-- Model of `model.NewMediaFile`. -/
def NewMediaFile (filename storagePath mimeType fileType hash : GoStr)
    (fileSize : Nat) (uploaderID : Option Nat) : MediaFile :=
  { id := 0
    filename := filename
    storagePath := storagePath
    mimeType := mimeType
    fileType := fileType
    hash := hash
    fileSize := fileSize
    uploaderID := uploaderID
    width := none, height := none, duration := none
    alt := [], caption := []
    status := str "active"
    isPublic := true }

/-- Model of `model.NewMediaUsage` (the Go constructor dereferences `uploaderID`,
which every caller passes non-nil, so it is a plain `Nat` here). -/
def NewMediaUsage (mediaID : Nat) (usageType : GoStr) (targetID : Option Nat)
    (uploaderID : Nat) : MediaUsage :=
  { id := 0, mediaID := mediaID, usageType := usageType
    targetID := targetID, uploaderID := uploaderID }

/-- Model of `MediaFile.IsImage`. -/
def MediaFile.goIsImage (m : MediaFile) : Bool := m.fileType = str "image"

/-- Model of `MediaFile.SetDimensions`. -/
def MediaFile.setDimensions (m : MediaFile) (w h : Nat) : MediaFile :=
  { m with width := some w, height := some h }

/-- Model of `MediaFile.CanEdit(user)`: nil user is denied; otherwise admins and the
uploader may edit. -/
def MediaFile.canEdit (m : MediaFile) (user : Option User) : Bool :=
  match user with
  | none => false
  | some u =>
    if u.goIsAdmin then true
    else
      match m.uploaderID with
      | some uid => uid = u.id
      | none => false

/-- Model of `MediaFile.CanDelete(user)` delegates to `CanEdit`. -/
def MediaFile.canDelete (m : MediaFile) (user : Option User) : Bool :=
  m.canEdit user

/-! ### Errors

Go returns wrapped `fmt.Errorf` strings; each distinct error site becomes a
constructor (`createRecordFailed`/`processingFailed`/`saveFailed` mirror the
`%w` wrapping). -/

inductive MediaError where
  | validationFailed
  | fileTooLarge
  | unsupportedType
  | notFound
  | permissionDenied
  | duplicateFingerprint
  | createRecordFailed (cause : MediaError)
  | notAnImage
  | openFailed
  | decodeFailed
  | missingDimensions
  | emptyWatermarkText
  | unsupportedProcessType
  | unsupportedOutputFormat
  | processingFailed (cause : MediaError)
  | saveFailed (cause : MediaError)
  deriving Repr, DecidableEq

/-! ### Persistent state and the repositories (`repository`, part_014)

The GORM-backed tables and the storage-directory filesystem become three
lists.  `nextMediaID`/`nextUsageID` model the autoincrement key. -/

structure St where
  registry : List MediaFile
  usages : List MediaUsage
  disk : List (GoStr × Bytes)
  nextMediaID : Nat
  nextUsageID : Nat
  deriving Repr, DecidableEq

namespace Repo

/-- Model of `mediaRepository.GetByID`: `First(&media, id)`. -/
def getByID (st : St) (id : Nat) : Option MediaFile :=
  st.registry.find? (fun m => m.id = id)

/-- Model of `mediaRepository.GetByHash`: `Where("hash = ?").First`; a miss is the
non-error `nil, nil` result, hence `Option`. -/
def getByHash (st : St) (hash : GoStr) : Option MediaFile :=
  st.registry.find? (fun m => m.hash = hash)

/-- Model of `mediaRepository.Create`: the `uniqueIndex` on `hash` makes the insert
fail when the fingerprint already exists; otherwise the row is appended
with the next autoincrement id. -/
def create (st : St) (media : MediaFile) : Except MediaError (MediaFile × St) :=
  if st.registry.any (fun m => m.hash = media.hash) then
    .error .duplicateFingerprint
  else
    let m := { media with id := st.nextMediaID }
    .ok (m, { st with registry := st.registry ++ [m],
                      nextMediaID := st.nextMediaID + 1 })

/-- Model of `mediaRepository.Update`: `Save` replaces the row with the same id. -/
def update (st : St) (media : MediaFile) : St :=
  { st with registry := st.registry.map (fun m => if m.id = media.id then media else m) }

/-- Model of `mediaRepository.Delete`: hard row removal. -/
def delete (st : St) (id : Nat) : St :=
  { st with registry := st.registry.filter (fun m => m.id ≠ id) }

/-- Model of `mediaRepository.SoftDelete`: `Update("status", "deleted")` on the row. -/
def softDelete (st : St) (id : Nat) : St :=
  { st with registry := st.registry.map (fun m =>
      if m.id = id then { m with status := str "deleted" } else m) }

/-- Model of `mediaUsageRepository.Create`. -/
def usageCreate (st : St) (usage : MediaUsage) : St :=
  { st with usages := st.usages ++ [{ usage with id := st.nextUsageID }],
            nextUsageID := st.nextUsageID + 1 }

/-- Model of `mediaUsageRepository.GetByMediaID`. -/
def usagesByMedia (st : St) (mediaID : Nat) : List MediaUsage :=
  st.usages.filter (fun u => u.mediaID = mediaID)

end Repo

/-! ### Filesystem effects (`os.WriteFile` overwrites, `os.Remove`) -/

/-- Model of `os.WriteFile path content`: replace any previous entry at `path`. -/
def diskWrite (st : St) (path : GoStr) (content : Bytes) : St :=
  { st with disk := st.disk.filter (fun e => e.1 ≠ path) ++ [(path, content)] }

/-- Model of `os.Remove path`. -/
def diskRemove (st : St) (path : GoStr) : St :=
  { st with disk := st.disk.filter (fun e => e.1 ≠ path) }

/-- Model of `os.Open`/`io.ReadAll` of a stored file. -/
def diskRead (st : St) (path : GoStr) : Option Bytes :=
  (st.disk.find? (fun e => e.1 = path)).map (fun e => e.2)

/-! ### Environment: configuration plus external pure facilities -/

/-- Configuration consumed by the media services (`config.Upload.*`) and
the external standard-library functions they call, all pure.  `dateYYYY`/
`dateMM`/`dateDD` are the components `time.Now().Format("2006/01/02")`
would produce; `md5Hex` abstracts `md5.Sum` + `%x` (a deterministic
function of the content — determinism is intrinsic to it being a `Lean`
function); `typeByExtension`/`detectContentType` abstract `mime` and
`net/http` sniffing; the codecs abstract `image.Decode`, `jpeg.Encode`
(taking the quality) and `png.Encode`. -/
structure Env where
  maxFileSize : Nat
  allowedTypes : List GoStr
  storagePath : GoStr
  baseURL : GoStr
  dateYYYY : GoStr
  dateMM : GoStr
  dateDD : GoStr
  md5Hex : Bytes → GoStr
  typeByExtension : GoStr → GoStr
  detectContentType : Bytes → GoStr
  decodeImage : Bytes → Option (Nat × Nat × GoStr)
  encodeJpeg : Nat → Nat → Nat → Bytes
  encodePng : Nat → Nat → Bytes

/-! ### Upload service (`internal/media/service/upload.go`) -/

namespace UploadService

/-- Model of `service.FileUploadRequest` (the upload metadata). -/
structure FileUploadRequest where
  alt : GoStr
  caption : GoStr
  isPublic : Option Bool
  usageType : GoStr
  targetID : Option Nat
  deriving Repr, DecidableEq

/-- Model of `validator.Validate` on a `FileUploadRequest`, from its validate tags:
`alt ≤ 200`, `caption ≤ 500`, `usage_type` required and one of the five
allowed values. -/
def validateFileUploadRequest (r : FileUploadRequest) : Bool :=
  decide (r.alt.length ≤ 200) && decide (r.caption.length ≤ 500) &&
    (r.usageType = str "post_avatar" || r.usageType = str "post_cover" ||
     r.usageType = str "post_content" || r.usageType = str "moment_content" ||
     r.usageType = str "user_avatar")

/-- Model of `service.UploadResult`. -/
structure UploadResult where
  mediaFile : MediaFile
  url : GoStr
  message : GoStr
  deriving Repr, DecidableEq

/-- Model of `UploadService.detectMimeType`: extension first, content sniffing as
the fallback. -/
def detectMimeType (env : Env) (filename : GoStr) (content : Bytes) : GoStr :=
  let mimeType := env.typeByExtension (pathExt filename)
  if mimeType = [] then env.detectContentType content else mimeType

/-- Model of `UploadService.getFileType`: MIME prefix to coarse category (audio is
bucketed with video, as in the source). -/
def getFileType (mimeType : GoStr) : GoStr :=
  if strStartsWith mimeType (str "image/") then str "image"
  else if strStartsWith mimeType (str "video/") then str "video"
  else if strStartsWith mimeType (str "audio/") then str "video"
  else if strContains mimeType (str "document") || strContains mimeType (str "pdf") ||
          strContains mimeType (str "text") || strContains mimeType (str "spreadsheet") ||
          strContains mimeType (str "presentation") then str "document"
  else str "other"

/-- Model of `UploadService.isAllowedFileType`: some configured allow-list entry is
a prefix of the detected MIME type. -/
def isAllowedFileType (env : Env) (mimeType : GoStr) : Bool :=
  env.allowedTypes.any (fun allowedType => strStartsWith mimeType allowedType)

/-- Model of `UploadService.calculateHash`: the MD5 hex digest of the content. -/
def calculateHash (env : Env) (content : Bytes) : GoStr :=
  env.md5Hex content

/-- Model of `UploadService.generateStoragePath`: date partition, 2-character hash
shard, remainder-of-hash filename with the original extension (`.bin` when
the filename has none). -/
def generateStoragePath (env : Env) (filename hash : GoStr) : GoStr :=
  let date := env.dateYYYY ++ '/' :: env.dateMM ++ '/' :: env.dateDD
  let shard := hash.take 2
  let ext := pathExt filename
  let ext := if ext = [] then str ".bin" else ext
  let uniqueFilename := hash.drop 2 ++ ext
  goJoin [env.storagePath, date, shard, uniqueFilename]

/-- Model of `UploadService.generateFileURL`: strip the storage root (and a leading
slash) and join onto the public base URL. -/
def generateFileURL (env : Env) (storagePath : GoStr) : GoStr :=
  let relativePath := strTrimStart storagePath env.storagePath
  let relativePath := strTrimStart relativePath (str "/")
  env.baseURL ++ '/' :: relativePath

/-- Model of `UploadService.getImageDimensions` is an acknowledged stub in the
source: it always returns an error, so uploads never learn dimensions. -/
def getImageDimensions (_content : Bytes) : Option (Nat × Nat) := none

/-- The `MediaFile` record `UploadFile` builds before the registry insert
(lines 142–169): `NewMediaFile`, the metadata conditionals, and the
dimension probe — `getImageDimensions` always fails, so `SetDimensions`
is never reached on this path. -/
def buildUploadMediaFile (content : Bytes) (filename : GoStr) (uploaderID : Nat)
    (req : FileUploadRequest) (mimeType fileType hash storagePath : GoStr) : MediaFile :=
  let mediaFile := NewMediaFile filename storagePath mimeType fileType hash
    content.length (some uploaderID)
  let mediaFile := if req.alt ≠ [] then { mediaFile with alt := req.alt } else mediaFile
  let mediaFile :=
    if req.caption ≠ [] then { mediaFile with caption := req.caption } else mediaFile
  let mediaFile :=
    match req.isPublic with
    | some p => { mediaFile with isPublic := p }
    | none => mediaFile
  if fileType = str "image" then
    match getImageDimensions content with
    | some (w, h) => mediaFile.setDimensions w h
    | none => mediaFile
  else mediaFile

/-- The not-yet-deduplicated tail of `UploadService.UploadFile`
(lines 133–199): write the bytes, build the row, insert it — removing the
just-written file when the insert fails — then record the optional usage.
Factored out so the state the registry insert sees can differ from the
state the dedup lookup saw (the concurrent-ingestion race of spec §5). -/
def uploadFileStore (env : Env) (st : St) (content : Bytes) (filename : GoStr)
    (uploaderID : Nat) (req : FileUploadRequest) (mimeType fileType hash : GoStr) :
    Except MediaError UploadResult × St :=
  let storagePath := generateStoragePath env filename hash
  let st := diskWrite st storagePath content
  let mediaFile := buildUploadMediaFile content filename uploaderID req
    mimeType fileType hash storagePath
  match Repo.create st mediaFile with
  | .error e =>
    -- `os.Remove(storagePath)` then propagate the wrapped insert failure.
    (.error (.createRecordFailed e), diskRemove st storagePath)
  | .ok (m, st) =>
    let st :=
      if req.usageType ≠ [] then
        Repo.usageCreate st (NewMediaUsage m.id req.usageType req.targetID uploaderID)
      else st
    (.ok { mediaFile := m, url := generateFileURL env storagePath,
           message := str "文件上传成功" }, st)

/-- Model of `UploadService.UploadFile` (lines 78–199): validate, size-check,
classify, allow-list-check, fingerprint, dedup lookup; on a hit return the
existing row (recording a usage), otherwise run the store phase. -/
def uploadFile (env : Env) (st : St) (content : Bytes) (filename : GoStr)
    (uploaderID : Nat) (req : FileUploadRequest) :
    Except MediaError UploadResult × St :=
  if ¬ validateFileUploadRequest req then (.error .validationFailed, st)
  else if content.length > env.maxFileSize then (.error .fileTooLarge, st)
  else
    let mimeType := detectMimeType env filename content
    let fileType := getFileType mimeType
    if ¬ isAllowedFileType env mimeType then (.error .unsupportedType, st)
    else
      let hash := calculateHash env content
      match Repo.getByHash st hash with
      | some existingMedia =>
        let st :=
          if req.usageType ≠ [] then
            Repo.usageCreate st
              (NewMediaUsage existingMedia.id req.usageType req.targetID uploaderID)
          else st
        (.ok { mediaFile := existingMedia,
               url := generateFileURL env existingMedia.storagePath,
               message := str "文件已存在，返回现有文件" }, st)
      | none => uploadFileStore env st content filename uploaderID req mimeType fileType hash

/-- Model of `UploadService.UpdateMedia`: fetch, permission-check with a nil user
(the source passes `nil` with a "need to pass the user object" comment),
then field updates and `Update` — the last two are unreachable. -/
def updateMedia (st : St) (id : Nat) (req : FileUploadRequest) :
    Except MediaError MediaFile × St :=
  match Repo.getByID st id with
  | none => (.error .notFound, st)
  | some media =>
    if ¬ media.canEdit none then (.error .permissionDenied, st)
    else
      let media := if req.alt ≠ [] then { media with alt := req.alt } else media
      let media := if req.caption ≠ [] then { media with caption := req.caption } else media
      let media :=
        match req.isPublic with
        | some p => { media with isPublic := p }
        | none => media
      (.ok media, Repo.update st media)

/-- Model of `UploadService.DeleteMedia`: fetch, permission-check with a nil user,
then (unreachably) soft delete when usages exist, else remove the bytes
and hard-delete the row. -/
def deleteMedia (st : St) (id : Nat) :
    Except MediaError Unit × St :=
  match Repo.getByID st id with
  | none => (.error .notFound, st)
  | some media =>
    if ¬ media.canDelete none then (.error .permissionDenied, st)
    else
      let usages := Repo.usagesByMedia st id
      if usages.length > 0 then (.ok (), Repo.softDelete st id)
      else (.ok (), Repo.delete (diskRemove st media.storagePath) id)

end UploadService

/-! ### Transform engine (`internal/media/service/processor.go`)

Pixel contents are not needed by any claim; an `image.Image` is modelled by
its bounds (`Dx`, `Dy`).  Decoding and encoding are `Env` codecs. -/

/-- An `image.Image`, reduced to its bounds. -/
structure GoImage where
  width : Nat
  height : Nat
  deriving Repr, DecidableEq

namespace ProcessorService

/-- Model of `service.ProcessRequest`. -/
structure ProcessRequest where
  mediaID : Nat
  processType : GoStr
  width : Option Nat
  height : Option Nat
  quality : Option Nat
  watermarkText : GoStr
  outputFormat : GoStr
  deriving Repr, DecidableEq

/-- Model of `service.ProcessResult`. -/
structure ProcessResult where
  mediaFile : MediaFile
  url : GoStr
  message : GoStr
  deriving Repr, DecidableEq

/-- Model of `ProcessorService.resizeImage`: both dimensions absent is an error;
a missing dimension is derived from the source aspect ratio.  Go computes
the derived dimension as `int(float64(a) * float64(b) / float64(c))`:
`int()` truncates, and for any product below 2^53 the correctly rounded
float64 division never crosses an integer boundary, so this equals `Nat`
floor division.  The nearest-neighbour pixel loop only determines pixel
contents, which the bounds-only image model drops. -/
def resizeImage (img : GoImage) (width height : Option Nat) :
    Except MediaError GoImage :=
  if width = none ∧ height = none then .error .missingDimensions
  else
    let originalWidth := img.width
    let originalHeight := img.height
    let targetWidth :=
      match width, height with
      | some w, _ => w
      | none, some h => originalWidth * h / originalHeight
      | none, none => originalWidth
    let targetHeight :=
      match height, width with
      | some h, _ => h
      | none, some w => originalHeight * w / originalWidth
      | none, none => originalHeight
    .ok { width := targetWidth, height := targetHeight }

/-- Model of `ProcessorService.compressImage`: returns the image unchanged; the
quality parameter only takes effect at encode time. -/
def compressImage (img : GoImage) (_quality : Option Nat) :
    Except MediaError GoImage :=
  .ok img

/-- Model of `ProcessorService.addWatermark`: empty text is an error; otherwise the
pixels are copied to a same-bounds canvas and no watermark is drawn — the
source logs "水印功能暂未实现，返回原图" and returns the copy. -/
def addWatermark (img : GoImage) (watermarkText : GoStr) :
    Except MediaError GoImage :=
  if watermarkText = [] then .error .emptyWatermarkText
  else .ok { width := img.width, height := img.height }

/-- Model of `ProcessorService.generateThumbnail`: default to a 200×200 request when
both dimensions are absent, then resize. -/
def generateThumbnail (img : GoImage) (width height : Option Nat) :
    Except MediaError GoImage :=
  let defaultSize := 200
  let (width, height) :=
    if width = none ∧ height = none then (some defaultSize, some defaultSize)
    else (width, height)
  resizeImage img width height

/-- Model of `ProcessorService.generateProcessedImagePath`: sibling of the original
file, `{name}_{processType}.{format}`. -/
def generateProcessedImagePath (originalPath processType format : GoStr) : GoStr :=
  let dir := pathDir originalPath
  let filename := pathBase originalPath
  let nameWithoutExt := strTrimEnd filename (pathExt filename)
  goJoin [dir, nameWithoutExt ++ '_' :: processType ++ '.' :: format]

/-- Model of `ProcessorService.generateProcessedFilename`: `{name}_{processType}{ext}`. -/
def generateProcessedFilename (originalFilename processType : GoStr) : GoStr :=
  let ext := pathExt originalFilename
  let nameWithoutExt := strTrimEnd originalFilename ext
  nameWithoutExt ++ '_' :: processType ++ ext

/-- Model of `ProcessorService.getMimeTypeByFormat` (defaults to `image/jpeg`). -/
def getMimeTypeByFormat (format : GoStr) : GoStr :=
  if format = str "jpeg" ∨ format = str "jpg" then str "image/jpeg"
  else if format = str "png" then str "image/png"
  else if format = str "gif" then str "image/gif"
  else str "image/jpeg"

/-- Model of `ProcessorService.calculateFileHash`: the source does NOT hash the file
contents — its own comment says "这里应该实际计算文件哈希" ("should
actually compute the file hash") — and instead returns
`fmt.Sprintf("processed_%x", len(filePath))`, a function of the PATH
LENGTH alone. -/
def calculateFileHash (filePath : GoStr) : GoStr :=
  str "processed_" ++ Nat.toDigits 16 filePath.length

/-- Model of `ProcessorService.generateFileURL` (same body as the upload service's). -/
def generateFileURL (env : Env) (storagePath : GoStr) : GoStr :=
  let relativePath := strTrimStart storagePath env.storagePath
  let relativePath := strTrimStart relativePath (str "/")
  env.baseURL ++ '/' :: relativePath

/-- Model of `ProcessorService.saveProcessedImage`: mkdir (implicit in the disk
model), then encode by format — jpeg/jpg with the requested (default 85)
quality, png plainly, anything else is an error. -/
def saveProcessedImage (env : Env) (st : St) (img : GoImage)
    (path format : GoStr) (quality : Option Nat) : Except MediaError St :=
  if format = str "jpeg" ∨ format = str "jpg" then
    let q := match quality with | some q => q | none => 85
    .ok (diskWrite st path (env.encodeJpeg img.width img.height q))
  else if format = str "png" then
    .ok (diskWrite st path (env.encodePng img.width img.height))
  else .error .unsupportedOutputFormat

/-- The `switch req.ProcessType` block of `ProcessImage` (lines 85–100):
dispatch to the transform, paired with the output format (the source
format, except thumbnails which force jpeg; an unknown type is the
early-returned "不支持的处理类型" error). -/
def transformStep (img : GoImage) (format : GoStr) (req : ProcessRequest) :
    Except MediaError (GoImage × GoStr) :=
  if req.processType = str "resize" then
    (resizeImage img req.width req.height).map (fun i => (i, format))
  else if req.processType = str "compress" then
    (compressImage img req.quality).map (fun i => (i, format))
  else if req.processType = str "watermark" then
    (addWatermark img req.watermarkText).map (fun i => (i, format))
  else if req.processType = str "thumbnail" then
    (generateThumbnail img req.width req.height).map (fun i => (i, str "jpeg"))
  else .error .unsupportedProcessType

/-- Model of `ProcessorService.ProcessImage` (lines 54–159): fetch the source row,
require an image, read and decode the stored bytes, apply the requested
transform, encode to the output format at a derived sibling path, and
register the derived image as a brand-new row (source row untouched);
note the new row's `FileSize` is copied from the source row — the source
comment "这里应该重新计算文件大小" concedes it is not recomputed — and its
hash comes from `calculateFileHash` on the path. -/
def processImage (env : Env) (st : St) (req : ProcessRequest) :
    Except MediaError ProcessResult × St :=
  match Repo.getByID st req.mediaID with
  | none => (.error .notFound, st)
  | some media =>
    if ¬ media.goIsImage then (.error .notAnImage, st)
    else
      match diskRead st media.storagePath with
      | none => (.error .openFailed, st)
      | some content =>
        match env.decodeImage content with
        | none => (.error .decodeFailed, st)
        | some (w, h, format) =>
          let img : GoImage := { width := w, height := h }
          match transformStep img format req with
          | .error e =>
            (.error (if e = .unsupportedProcessType then e else .processingFailed e), st)
          | .ok (processedImg, outputFormat) =>
            let outputFormat :=
              if req.outputFormat ≠ [] then req.outputFormat else outputFormat
            let processedPath :=
              generateProcessedImagePath media.storagePath req.processType outputFormat
            match saveProcessedImage env st processedImg processedPath outputFormat
                req.quality with
            | .error e => (.error (.saveFailed e), st)
            | .ok st =>
              let processedMedia := NewMediaFile
                (generateProcessedFilename media.filename req.processType)
                processedPath
                (getMimeTypeByFormat outputFormat)
                (str "image")
                (calculateFileHash processedPath)
                media.fileSize
                media.uploaderID
              let processedMedia :=
                processedMedia.setDimensions processedImg.width processedImg.height
              let processedMedia := { processedMedia with
                alt := media.alt
                caption := media.caption ++ ' ' :: '(' :: req.processType ++ [')']
                isPublic := media.isPublic }
              match Repo.create st processedMedia with
              | .error e =>
                (.error (.createRecordFailed e), diskRemove st processedPath)
              | .ok (m, st) =>
                (.ok { mediaFile := m, url := generateFileURL env processedPath,
                       message := str "图片处理成功" }, st)

end ProcessorService

/-! ### Concrete sample data for witnesses and counterexamples -/

/-- A concrete environment: 10-byte limit, `image/` allow-list, `storage`
root, fixed date, and small executable stand-ins for the abstract
facilities (the fingerprinter tags the content length, the decoder yields
a 4×2 image, the codecs emit small marker byte lists). -/
def sampleEnv : Env :=
  { maxFileSize := 10
    allowedTypes := [str "image/"]
    storagePath := str "storage"
    baseURL := str "https://img.example.com"
    dateYYYY := str "2026", dateMM := str "10", dateDD := str "11"
    md5Hex := fun c => 'a' :: 'b' :: Nat.toDigits 16 c.length
    typeByExtension := fun ext => if ext = str ".png" then str "image/png" else []
    detectContentType := fun _ => str "application/octet-stream"
    decodeImage := fun c => if c = [] then none else some (4, 2, str "png")
    encodeJpeg := fun w h q => [w, h, q]
    encodePng := fun w h => [w, h] }

/-- A valid upload metadata request. -/
def reqSample : UploadService.FileUploadRequest :=
  { alt := [], caption := [], isPublic := none
    usageType := str "post_cover", targetID := none }

/-- The empty starting state. -/
def st0 : St :=
  { registry := [], usages := [], disk := [], nextMediaID := 1, nextUsageID := 1 }

/-- An active media row with no usage records (for the delete claims). -/
def mediaC2 : MediaFile :=
  { NewMediaFile (str "x.png") (str "storage/x.png") (str "image/png")
      (str "image") (str "aabbcc") 3 (some 7) with id := 1 }

/-- State holding `mediaC2`, its bytes on disk, and zero usages. -/
def stC2 : St :=
  { registry := [mediaC2], usages := []
    disk := [(str "storage/x.png", [1, 2, 3])]
    nextMediaID := 2, nextUsageID := 1 }

/-- Content for the dedup-race scenario. -/
def contentC3 : Bytes := [1, 2, 3]

/-- The racing winner's row: its hash is exactly
`sampleEnv.md5Hex contentC3` and it sits at the storage path the loser
will also compute. -/
def mediaC3 : MediaFile :=
  { NewMediaFile (str "photo.png") (str "storage/2026/10/11/ab/3.png")
      (str "image/png") (str "image") (sampleEnv.md5Hex contentC3) 3 (some 9) with id := 1 }

/-- State as seen by the race loser at insert time: the winner's row is
already in the registry (the loser's dedup lookup happened earlier, on a
state without it). -/
def stC3 : St :=
  { registry := [mediaC3], usages := []
    disk := [(str "storage/2026/10/11/ab/3.png", contentC3)]
    nextMediaID := 2, nextUsageID := 1 }

/-- Source image row A for the transform claims (`FileSize` 999 is
deliberately unrelated to any derived encoding's byte count). -/
def mediaProcA : MediaFile :=
  { NewMediaFile (str "a.png") (str "storage/a.png") (str "image/png")
      (str "image") (str "hashA") 999 (some 7) with id := 1 }

/-- Source image row B: different id, bytes and fingerprint, but a storage
path of the same length as A's. -/
def mediaProcB : MediaFile :=
  { NewMediaFile (str "b.png") (str "storage/b.png") (str "image/png")
      (str "image") (str "hashB") 500 (some 7) with id := 2 }

/-- State holding both source images and their (distinct) bytes. -/
def stProc : St :=
  { registry := [mediaProcA, mediaProcB], usages := []
    disk := [(str "storage/a.png", [1]), (str "storage/b.png", [2, 2])]
    nextMediaID := 3, nextUsageID := 1 }

/-- Resize request against source A. -/
def reqC6A : ProcessorService.ProcessRequest :=
  { mediaID := 1, processType := str "resize", width := some 2, height := none
    quality := none, watermarkText := [], outputFormat := [] }

/-- The same resize request against source B. -/
def reqC6B : ProcessorService.ProcessRequest := { reqC6A with mediaID := 2 }

/-- Watermark request against source A. -/
def reqWatermark : ProcessorService.ProcessRequest :=
  { mediaID := 1, processType := str "watermark", width := none, height := none
    quality := none, watermarkText := str "hi", outputFormat := [] }

/-- Compress request against source A. -/
def reqCompress : ProcessorService.ProcessRequest :=
  { mediaID := 1, processType := str "compress", width := none, height := none
    quality := none, watermarkText := [], outputFormat := [] }

/-- The watermark run on the sample state (pair of result and state). -/
def c8pair := ProcessorService.processImage sampleEnv stProc reqWatermark

/-- The watermark run's successful result. -/
def c8res : ProcessorService.ProcessResult := c8pair.1.toOption.getD ⟨mediaProcA, [], []⟩

/-- The watermark run's final state. -/
def c8st : St := c8pair.2

/-- The compress run on the sample state. -/
def c10pair := ProcessorService.processImage sampleEnv stProc reqCompress

/-- The compress run's successful result. -/
def c10res : ProcessorService.ProcessResult := c10pair.1.toOption.getD ⟨mediaProcA, [], []⟩

/-- The compress run's final state. -/
def c10st : St := c10pair.2

/-! ### Helper lemmas -/

theorem strStartsWith_self_append (p t : GoStr) : strStartsWith (p ++ t) p = true := by
  induction p with
  | nil => simp [strStartsWith]
  | cons c cs ih => simp [strStartsWith, ih]

theorem strTrimStart_self_append (p t : GoStr) : strTrimStart (p ++ t) p = t := by
  simp [strTrimStart, strStartsWith_self_append, List.drop_left]

theorem usageCreate_registry (st : St) (u : MediaUsage) :
    (Repo.usageCreate st u).registry = st.registry := rfl

theorem usageCreate_disk (st : St) (u : MediaUsage) :
    (Repo.usageCreate st u).disk = st.disk := rfl

/-- Applying `Repo.create` on a state whose registry is fingerprint-fresh for the
row succeeds, appending the row with the next autoincrement id. -/
theorem repo_create_fresh (st : St) (mf : MediaFile)
    (hfresh : st.registry.any (fun m => m.hash = mf.hash) = false) :
    Repo.create st mf = .ok ({ mf with id := st.nextMediaID },
      { st with registry := st.registry ++ [{ mf with id := st.nextMediaID }],
                nextMediaID := st.nextMediaID + 1 }) := by
  simp [Repo.create, hfresh]

/-! ### Claim theorems -/

/-- C5 counterexample (corrected): on a 2×1 source, a width-only resize to
`W = 3` must, per the claim, produce height `round(h0 * W / w0) =
round(1.5) = 2`; the code truncates and produces height 1. -/
theorem resize_rounding_counterexample :
    ProcessorService.resizeImage { width := 2, height := 1 } (some 3) none =
      .ok { width := 3, height := 1 } ∧
    round ((1 : ℚ) * 3 / 2) = 2 ∧
    ProcessorService.resizeImage { width := 2, height := 1 } (some 3) none ≠
      .ok { width := 3, height := 2 } := by
  refine ⟨by decide, ?_, by decide⟩
  norm_num [round_eq]

/-- C5 amended (corrected): a single-dimension resize derives the other
dimension by TRUNCATING `h0·W/w0` (resp. `w0·H/h0`) — `int()` on the
float64 quotient, i.e. floor division — and a request with both
dimensions omitted is rejected. -/
theorem resize_aspect_truncation (w0 h0 W H : Nat) (_hw : 0 < w0) (_hh : 0 < h0) :
    ProcessorService.resizeImage { width := w0, height := h0 } (some W) none =
      .ok { width := W, height := h0 * W / w0 } ∧
    ProcessorService.resizeImage { width := w0, height := h0 } none (some H) =
      .ok { width := w0 * H / h0, height := H } ∧
    ProcessorService.resizeImage { width := w0, height := h0 } none none =
      .error .missingDimensions := by
  refine ⟨?_, ?_, by simp [ProcessorService.resizeImage]⟩ <;>
    simp [ProcessorService.resizeImage]

/-- C5 witness: a 4×3 source resized to width 8 gets height ⌊3·8/4⌋ = 6;
height-only to 9 gets width ⌊4·9/3⌋ = 12; both-omitted errors. -/
theorem resize_aspect_truncation_witness :
    ProcessorService.resizeImage { width := 4, height := 3 } (some 8) none =
      .ok { width := 8, height := 6 } ∧
    ProcessorService.resizeImage { width := 4, height := 3 } none (some 9) =
      .ok { width := 12, height := 9 } ∧
    ProcessorService.resizeImage { width := 4, height := 3 } none none =
      .error .missingDimensions :=
  resize_aspect_truncation 4 3 8 9 (by decide) (by decide)

/-- C6 (code bug): the transform engine's `calculateFileHash` ignores the
file's bytes entirely — it depends only on the length of the output path —
so two derived images with different contents (sources `[1]` and `[2,2]`)
are registered with the SAME fingerprint `"processed_14"`, violating the
content-hash/uniqueness invariant the ingestion side maintains with MD5. -/
theorem transform_fingerprint_not_content_hash :
    ((ProcessorService.processImage sampleEnv stProc reqC6A).1.toOption.map
      (fun r => r.mediaFile.hash)) = some (str "processed_14") ∧
    ((ProcessorService.processImage sampleEnv stProc reqC6B).1.toOption.map
      (fun r => r.mediaFile.hash)) = some (str "processed_14") ∧
    diskRead stProc mediaProcA.storagePath ≠ diskRead stProc mediaProcB.storagePath ∧
    ProcessorService.calculateFileHash (str "storage/a_resize.png") =
      ProcessorService.calculateFileHash (str "storage/b_resize.png") := by
  refine ⟨by decide, by decide, by decide, by decide⟩

/-- C2 (code bug): with media id 1 present and ZERO usage records, the
claim (and spec §4.8) requires the bytes and the row to be hard-deleted;
the code's permission check `CanDelete(nil)` rejects every caller first,
so `DeleteMedia` returns a permission error and deletes nothing. -/
theorem delete_blocked_by_nil_user_check :
    UploadService.deleteMedia stC2 1 = (.error .permissionDenied, stC2) ∧
    Repo.usagesByMedia stC2 1 = [] ∧
    Repo.getByID stC2 1 = some mediaC2 ∧
    diskRead stC2 mediaC2.storagePath = some [1, 2, 3] := by
  refine ⟨by decide, by decide, by decide, by decide⟩

/-- C9 (confirmed): for every filename and fingerprint (of length ≥ 2, as
every MD5 hex digest is), the storage path is
`{storageRoot}/{YYYY}/{MM}/{DD}/{first two hash chars}/{rest of hash}{ext
or ".bin"}`, and the public URL is the configured base URL joined with the
path relative to the storage root. -/
theorem storage_path_layout_and_url (env : Env) (filename hash : GoStr)
    (_h2 : 2 ≤ hash.length) :
    UploadService.generateStoragePath env filename hash =
      env.storagePath ++ '/' :: env.dateYYYY ++ '/' :: env.dateMM ++ '/' ::
        env.dateDD ++ '/' :: hash.take 2 ++ '/' :: (hash.drop 2 ++
          (if pathExt filename = [] then str ".bin" else pathExt filename)) ∧
    UploadService.generateFileURL env (UploadService.generateStoragePath env filename hash) =
      env.baseURL ++ '/' :: (env.dateYYYY ++ '/' :: env.dateMM ++ '/' ::
        env.dateDD ++ '/' :: hash.take 2 ++ '/' :: (hash.drop 2 ++
          (if pathExt filename = [] then str ".bin" else pathExt filename))) := by
  have hpath : UploadService.generateStoragePath env filename hash =
      env.storagePath ++ '/' :: (env.dateYYYY ++ '/' :: env.dateMM ++ '/' ::
        env.dateDD ++ '/' :: hash.take 2 ++ '/' :: (hash.drop 2 ++
          (if pathExt filename = [] then str ".bin" else pathExt filename))) := by
    simp [UploadService.generateStoragePath, goJoin]
  constructor
  · rw [hpath]; simp [List.append_assoc]
  · rw [hpath, UploadService.generateFileURL]
    have h1 := strTrimStart_self_append env.storagePath
      ('/' :: (env.dateYYYY ++ '/' :: env.dateMM ++ '/' :: env.dateDD ++ '/' ::
        hash.take 2 ++ '/' :: (hash.drop 2 ++
          (if pathExt filename = [] then str ".bin" else pathExt filename))))
    rw [h1]
    have h2 := strTrimStart_self_append (str "/")
      (env.dateYYYY ++ '/' :: env.dateMM ++ '/' :: env.dateDD ++ '/' ::
        hash.take 2 ++ '/' :: (hash.drop 2 ++
          (if pathExt filename = [] then str ".bin" else pathExt filename)))
    exact congrArg (fun t => env.baseURL ++ '/' :: t) h2

/-- C9 witness: with the sample config (root `storage`, date 2026/10/11),
filename `photo.png` and fingerprint `abcdef` the path and URL come out as
the claim's formula dictates. -/
theorem storage_path_layout_and_url_witness :
    2 ≤ (str "abcdef").length ∧
    (UploadService.generateStoragePath sampleEnv (str "photo.png") (str "abcdef") =
      sampleEnv.storagePath ++ '/' :: sampleEnv.dateYYYY ++ '/' :: sampleEnv.dateMM ++ '/' ::
        sampleEnv.dateDD ++ '/' :: (str "abcdef").take 2 ++ '/' :: ((str "abcdef").drop 2 ++
          (if pathExt (str "photo.png") = [] then str ".bin" else pathExt (str "photo.png"))) ∧
    UploadService.generateFileURL sampleEnv
        (UploadService.generateStoragePath sampleEnv (str "photo.png") (str "abcdef")) =
      sampleEnv.baseURL ++ '/' :: (sampleEnv.dateYYYY ++ '/' :: sampleEnv.dateMM ++ '/' ::
        sampleEnv.dateDD ++ '/' :: (str "abcdef").take 2 ++ '/' :: ((str "abcdef").drop 2 ++
          (if pathExt (str "photo.png") = [] then str ".bin" else pathExt (str "photo.png"))))) ∧
    UploadService.generateStoragePath sampleEnv (str "photo.png") (str "abcdef") =
      str "storage/2026/10/11/ab/cdef.png" :=
  ⟨by decide, storage_path_layout_and_url sampleEnv (str "photo.png") (str "abcdef") (by decide),
   by decide⟩

/-- C4 (confirmed): for any state holding the requested id, both
`UpdateMedia` and `DeleteMedia` stop at the permission check — the source
invokes it with a nil user, and `CanEdit(nil)` (hence `CanDelete(nil)`) is
false — returning a permission error and leaving the registry, every row
field, and the disk exactly as they were. -/
theorem update_delete_always_permission_denied (st : St) (id : Nat)
    (req : UploadService.FileUploadRequest) (media : MediaFile)
    (hmedia : Repo.getByID st id = some media) :
    UploadService.updateMedia st id req = (.error .permissionDenied, st) ∧
    UploadService.deleteMedia st id = (.error .permissionDenied, st) ∧
    media.canEdit none = false ∧
    media.canDelete none = false := by
  refine ⟨?_, ?_, rfl, rfl⟩
  · simp [UploadService.updateMedia, hmedia, MediaFile.canEdit]
  · simp [UploadService.deleteMedia, hmedia, MediaFile.canDelete, MediaFile.canEdit]

/-- C4 witness: instantiated on the sample one-row state. -/
theorem update_delete_always_permission_denied_witness :
    UploadService.updateMedia stC2 1 reqSample = (.error .permissionDenied, stC2) ∧
    UploadService.deleteMedia stC2 1 = (.error .permissionDenied, stC2) ∧
    mediaC2.canEdit none = false ∧
    mediaC2.canDelete none = false :=
  update_delete_always_permission_denied stC2 1 reqSample mediaC2 (by decide)

/-- The record built before the insert carries exactly the fingerprint it
was given (none of the metadata conditionals touch it). -/
theorem buildUploadMediaFile_hash (content : Bytes) (filename : GoStr) (uploaderID : Nat)
    (req : UploadService.FileUploadRequest) (mimeType fileType hash storagePath : GoStr) :
    (UploadService.buildUploadMediaFile content filename uploaderID req
      mimeType fileType hash storagePath).hash = hash := by
  simp only [UploadService.buildUploadMediaFile, UploadService.getImageDimensions]
  repeat' split
  all_goals rfl

/-- A fingerprint miss in `GetByHash` means no registry row carries it. -/
theorem getByHash_none_any_false (st : St) (h : GoStr)
    (hh : Repo.getByHash st h = none) :
    st.registry.any (fun mm => mm.hash = h) = false := by
  have hfind : st.registry.find? (fun mm => mm.hash = h) = none := hh
  rw [List.any_eq_false]
  intro mm hmm
  simpa using List.find?_eq_none.mp hfind mm hmm

/-- Behaviour of the store phase on a fingerprint-fresh registry: the
bytes land at the generated path, the row is appended with the next id and
the given hash, and the success result carries the generic success
message. -/
theorem uploadFileStore_spec (env : Env) (st : St) (content : Bytes) (filename : GoStr)
    (uploaderID : Nat) (req : UploadService.FileUploadRequest) (mimeType fileType hash : GoStr)
    (hfresh : st.registry.any (fun mm => mm.hash = hash) = false) :
    ∃ m st',
      UploadService.uploadFileStore env st content filename uploaderID req mimeType fileType hash =
        (.ok { mediaFile := m,
               url := UploadService.generateFileURL env
                 (UploadService.generateStoragePath env filename hash),
               message := str "文件上传成功" }, st') ∧
      m.hash = hash ∧ m.id = st.nextMediaID ∧
      st'.registry = st.registry ++ [m] ∧
      st'.disk = st.disk.filter
          (fun e => e.1 ≠ UploadService.generateStoragePath env filename hash) ++
        [(UploadService.generateStoragePath env filename hash, content)] := by
  have hmf := buildUploadMediaFile_hash content filename uploaderID req mimeType fileType hash
    (UploadService.generateStoragePath env filename hash)
  have hc := repo_create_fresh
    (diskWrite st (UploadService.generateStoragePath env filename hash) content)
    (UploadService.buildUploadMediaFile content filename uploaderID req mimeType fileType hash
      (UploadService.generateStoragePath env filename hash))
    (by simp only [hmf]; exact hfresh)
  simp only [UploadService.uploadFileStore, hc]
  refine ⟨_, _, rfl, ?_, rfl, ?_, ?_⟩
  · exact hmf
  · split <;> rfl
  · split <;> rfl

/-- C3 counterexample (corrected): on the losing side of the dedup race —
the registry already holds the winner's row with the same fingerprint when
the store phase runs — the pipeline does NOT re-read and return the
existing record: it returns the wrapped insert failure as an error. -/
theorem losing_insert_error_counterexample :
    Repo.getByHash stC3 (sampleEnv.md5Hex contentC3) = some mediaC3 ∧
    (UploadService.uploadFileStore sampleEnv stC3 contentC3 (str "photo.png") 7 reqSample
      (str "image/png") (str "image") (sampleEnv.md5Hex contentC3)).1 =
      .error (.createRecordFailed .duplicateFingerprint) := by
  refine ⟨by decide, by decide⟩

/-- C3 amended (corrected): when the registry insert fails because the
fingerprint already exists, the pipeline removes the just-written bytes
(`os.Remove`) and propagates the wrapped `DuplicateFingerprint` failure to
the caller; no re-read fallback exists.  The final disk holds no file at
the generated path. -/
theorem losing_insert_cleanup_and_error (env : Env) (st : St) (content : Bytes)
    (filename : GoStr) (uploaderID : Nat) (req : UploadService.FileUploadRequest)
    (mimeType fileType hash : GoStr)
    (hdup : st.registry.any (fun mm => mm.hash = hash) = true) :
    UploadService.uploadFileStore env st content filename uploaderID req mimeType fileType hash =
      (.error (.createRecordFailed .duplicateFingerprint),
       diskRemove (diskWrite st (UploadService.generateStoragePath env filename hash) content)
         (UploadService.generateStoragePath env filename hash)) ∧
    (diskRemove (diskWrite st (UploadService.generateStoragePath env filename hash) content)
        (UploadService.generateStoragePath env filename hash)).disk =
      st.disk.filter (fun e => e.1 ≠ UploadService.generateStoragePath env filename hash) := by
  constructor
  · have hmf := buildUploadMediaFile_hash content filename uploaderID req mimeType fileType hash
      (UploadService.generateStoragePath env filename hash)
    have hcreate : Repo.create
        (diskWrite st (UploadService.generateStoragePath env filename hash) content)
        (UploadService.buildUploadMediaFile content filename uploaderID req mimeType fileType
          hash (UploadService.generateStoragePath env filename hash)) =
        .error .duplicateFingerprint := by
      have hdup' : (diskWrite st (UploadService.generateStoragePath env filename hash)
          content).registry.any (fun mm => mm.hash = hash) = true := hdup
      simp [Repo.create, hmf, hdup']
    simp only [UploadService.uploadFileStore, hcreate]
  · simp [diskRemove, diskWrite, List.filter_append, List.filter_filter]

/-- C3 witness: the amended behaviour at the concrete race state. -/
theorem losing_insert_cleanup_and_error_witness :
    stC3.registry.any (fun mm => mm.hash = sampleEnv.md5Hex contentC3) = true ∧
    (UploadService.uploadFileStore sampleEnv stC3 contentC3 (str "photo.png") 7 reqSample
        (str "image/png") (str "image") (sampleEnv.md5Hex contentC3) =
      (.error (.createRecordFailed .duplicateFingerprint),
       diskRemove (diskWrite stC3
           (UploadService.generateStoragePath sampleEnv (str "photo.png")
             (sampleEnv.md5Hex contentC3)) contentC3)
         (UploadService.generateStoragePath sampleEnv (str "photo.png")
           (sampleEnv.md5Hex contentC3))) ∧
    (diskRemove (diskWrite stC3
          (UploadService.generateStoragePath sampleEnv (str "photo.png")
            (sampleEnv.md5Hex contentC3)) contentC3)
        (UploadService.generateStoragePath sampleEnv (str "photo.png")
          (sampleEnv.md5Hex contentC3))).disk =
      stC3.disk.filter (fun e => e.1 ≠ UploadService.generateStoragePath sampleEnv
        (str "photo.png") (sampleEnv.md5Hex contentC3))) :=
  ⟨by decide, losing_insert_cleanup_and_error sampleEnv stC3 contentC3 (str "photo.png") 7
    reqSample (str "image/png") (str "image") (sampleEnv.md5Hex contentC3) (by decide)⟩

/-- C7 (confirmed): oversized content is rejected with the file-too-large
error and disallowed MIME types with the unsupported-type error, in both
cases with the state (disk and registry) untouched; content exactly at the
configured limit is never rejected for size. -/
theorem upload_rejection_boundaries (env : Env) (st : St) (content : Bytes)
    (filename : GoStr) (uploaderID : Nat) (req : UploadService.FileUploadRequest)
    (hv : UploadService.validateFileUploadRequest req = true) :
    (content.length > env.maxFileSize →
      UploadService.uploadFile env st content filename uploaderID req =
        (.error .fileTooLarge, st)) ∧
    (content.length ≤ env.maxFileSize →
      UploadService.isAllowedFileType env
        (UploadService.detectMimeType env filename content) = false →
      UploadService.uploadFile env st content filename uploaderID req =
        (.error .unsupportedType, st)) ∧
    (content.length = env.maxFileSize →
      (UploadService.uploadFile env st content filename uploaderID req).1 ≠
        .error .fileTooLarge) := by
  refine ⟨?_, ?_, ?_⟩
  · intro hgt
    simp [UploadService.uploadFile, hv, hgt]
  · intro hle hbad
    have hs' : ¬ content.length > env.maxFileSize := by omega
    simp [UploadService.uploadFile, hv, hs', hbad]
  · intro heq
    have hs' : ¬ content.length > env.maxFileSize := by omega
    simp only [UploadService.uploadFile, hv, hs']
    simp only [Bool.not_eq_true, if_neg, if_false, ite_not]
    repeat' split
    all_goals simp only [UploadService.uploadFileStore]
    all_goals repeat' split
    all_goals simp

/-- C7 witness: 11 bytes against the 10-byte sample limit is rejected as
too large; an unklassifiable `doc.dat` sniffs to `application/octet-stream`
and is rejected as unsupported; exactly 10 bytes is not rejected for
size. -/
theorem upload_rejection_boundaries_witness :
    UploadService.uploadFile sampleEnv st0 (List.replicate 11 0) (str "photo.png") 7
        reqSample = (.error .fileTooLarge, st0) ∧
    UploadService.uploadFile sampleEnv st0 [1, 2, 3] (str "doc.dat") 7 reqSample =
      (.error .unsupportedType, st0) ∧
    (UploadService.uploadFile sampleEnv st0 (List.replicate 10 0) (str "photo.png") 7
        reqSample).1 ≠ .error .fileTooLarge :=
  ⟨(upload_rejection_boundaries sampleEnv st0 (List.replicate 11 0) (str "photo.png") 7
      reqSample (by decide)).1 (by decide),
   (upload_rejection_boundaries sampleEnv st0 [1, 2, 3] (str "doc.dat") 7
      reqSample (by decide)).2.1 (by decide) (by decide),
   (upload_rejection_boundaries sampleEnv st0 (List.replicate 10 0) (str "photo.png") 7
      reqSample (by decide)).2.2 (by decide)⟩

/-- C1 (confirmed): ingesting the same bytes twice (valid metadata, within
the size limit, allowed type, fingerprint initially absent) succeeds both
times, the first call answering with the "uploaded" message and the second
with the distinguishable "already existed" message and the SAME MediaFile
id; the bytes are written exactly once (the second call changes neither
the disk nor the registry). -/
theorem upload_idempotent (env : Env) (st : St) (content : Bytes) (filename : GoStr)
    (uploaderID : Nat) (req : UploadService.FileUploadRequest)
    (hv : UploadService.validateFileUploadRequest req = true)
    (hs : content.length ≤ env.maxFileSize)
    (ht : UploadService.isAllowedFileType env
      (UploadService.detectMimeType env filename content) = true)
    (hh : Repo.getByHash st (env.md5Hex content) = none) :
    ∃ r1 st1 r2 st2,
      UploadService.uploadFile env st content filename uploaderID req = (.ok r1, st1) ∧
      UploadService.uploadFile env st1 content filename uploaderID req = (.ok r2, st2) ∧
      r1.message = str "文件上传成功" ∧
      r2.message = str "文件已存在，返回现有文件" ∧
      r2.mediaFile.id = r1.mediaFile.id ∧
      st1.disk = st.disk.filter
          (fun e => e.1 ≠ UploadService.generateStoragePath env filename (env.md5Hex content)) ++
        [(UploadService.generateStoragePath env filename (env.md5Hex content), content)] ∧
      st2.disk = st1.disk ∧
      st2.registry = st1.registry := by
  have hs' : ¬ content.length > env.maxFileSize := by omega
  have hfresh := getByHash_none_any_false st (env.md5Hex content) hh
  obtain ⟨m, st1, hstore, hmh, hmid, hreg1, hdisk1⟩ :=
    uploadFileStore_spec env st content filename uploaderID req
      (UploadService.detectMimeType env filename content)
      (UploadService.getFileType (UploadService.detectMimeType env filename content))
      (env.md5Hex content) hfresh
  have h1 : UploadService.uploadFile env st content filename uploaderID req =
      (.ok { mediaFile := m,
             url := UploadService.generateFileURL env
               (UploadService.generateStoragePath env filename (env.md5Hex content)),
             message := str "文件上传成功" }, st1) := by
    simp [UploadService.uploadFile, UploadService.calculateHash, hv, hs', ht, hh, hstore]
  have hh2 : Repo.getByHash st1 (env.md5Hex content) = some m := by
    have hfindnone : st.registry.find? (fun mm => mm.hash = env.md5Hex content) = none := hh
    simp only [Repo.getByHash, hreg1, List.find?_append, hfindnone]
    simp [List.find?, hmh]
  have h2 : UploadService.uploadFile env st1 content filename uploaderID req =
      (.ok { mediaFile := m,
             url := UploadService.generateFileURL env m.storagePath,
             message := str "文件已存在，返回现有文件" },
       if req.usageType ≠ [] then
         Repo.usageCreate st1 (NewMediaUsage m.id req.usageType req.targetID uploaderID)
       else st1) := by
    simp [UploadService.uploadFile, UploadService.calculateHash, hv, hs', ht, hh2]
  refine ⟨_, st1, _, _, h1, h2, rfl, rfl, rfl, hdisk1, ?_, ?_⟩
  · split <;> rfl
  · split <;> rfl

/-- C1 witness: uploading `[1,2,3]` as `photo.png` twice from the empty
state. -/
theorem upload_idempotent_witness :
    UploadService.validateFileUploadRequest reqSample = true ∧
    ([1, 2, 3] : Bytes).length ≤ sampleEnv.maxFileSize ∧
    UploadService.isAllowedFileType sampleEnv
      (UploadService.detectMimeType sampleEnv (str "photo.png") [1, 2, 3]) = true ∧
    Repo.getByHash st0 (sampleEnv.md5Hex [1, 2, 3]) = none ∧
    (∃ r1 st1 r2 st2,
      UploadService.uploadFile sampleEnv st0 [1, 2, 3] (str "photo.png") 7 reqSample =
        (.ok r1, st1) ∧
      UploadService.uploadFile sampleEnv st1 [1, 2, 3] (str "photo.png") 7 reqSample =
        (.ok r2, st2) ∧
      r1.message = str "文件上传成功" ∧
      r2.message = str "文件已存在，返回现有文件" ∧
      r2.mediaFile.id = r1.mediaFile.id ∧
      st1.disk = st0.disk.filter
          (fun e => e.1 ≠ UploadService.generateStoragePath sampleEnv (str "photo.png")
            (sampleEnv.md5Hex [1, 2, 3])) ++
        [(UploadService.generateStoragePath sampleEnv (str "photo.png")
            (sampleEnv.md5Hex [1, 2, 3]), [1, 2, 3])] ∧
      st2.disk = st1.disk ∧
      st2.registry = st1.registry) :=
  ⟨by decide, by decide, by decide, by decide,
   upload_idempotent sampleEnv st0 [1, 2, 3] (str "photo.png") 7 reqSample
     (by decide) (by decide) (by decide) (by decide)⟩

/-- Shape of every successful `ProcessImage` call: the message is the one
generic success string, and the new row's `FileSize` is the source row's
`FileSize` (the source comment "这里应该重新计算文件大小" concedes it is
copied, not recomputed from the derived bytes). -/
theorem processImage_ok_shape (env : Env) (st : St) (req : ProcessorService.ProcessRequest)
    (res : ProcessorService.ProcessResult) (st' : St)
    (hok : ProcessorService.processImage env st req = (.ok res, st')) :
    res.message = str "图片处理成功" ∧
    ∃ media, Repo.getByID st req.mediaID = some media ∧
      res.mediaFile.fileSize = media.fileSize := by
  unfold ProcessorService.processImage at hok
  split at hok
  · exact absurd hok (by simp)
  rename_i media hmedia
  split at hok
  · exact absurd hok (by simp)
  rename_i himg
  split at hok
  · exact absurd hok (by simp)
  rename_i content hcontent
  split at hok
  · exact absurd hok (by simp)
  rename_i w h format hdecode
  rcases hstep : ProcessorService.transformStep { width := w, height := h } format req
    with e | ⟨img2, fmt2⟩
  · simp only [hstep] at hok
    exact absurd hok (by simp)
  · simp only [hstep] at hok
    rcases hsave : ProcessorService.saveProcessedImage env st img2
        (ProcessorService.generateProcessedImagePath media.storagePath req.processType
          (if req.outputFormat ≠ [] then req.outputFormat else fmt2))
        (if req.outputFormat ≠ [] then req.outputFormat else fmt2) req.quality
      with e2 | st2
    · simp only [hsave] at hok
      exact absurd hok (by simp)
    · simp only [hsave] at hok
      split at hok
      · exact absurd hok (by simp)
      rename_i m st3 hcr
      injection hok with hfst hsnd
      injection hfst with hres
      subst hres
      refine ⟨rfl, media, hmedia, ?_⟩
      unfold Repo.create at hcr
      repeat' split at hcr
      all_goals try simp at hcr
      all_goals obtain ⟨hm, hst⟩ := hcr
      all_goals subst hm
      all_goals rfl

/-- C8 counterexample (corrected): a watermark transform (whose rendering
is unimplemented and passes the pixels through) answers with exactly the
same ordinary success result shape and generic message as any other
transform — no field or flag distinguishes "watermark not applied" in the
returned result, contradicting the claim that the outcome is surfaced. -/
theorem watermark_ordinary_success_counterexample :
    ((ProcessorService.processImage sampleEnv stProc reqWatermark).1.toOption.map
      (fun r => r.message)) = some (str "图片处理成功") ∧
    ((ProcessorService.processImage sampleEnv stProc reqCompress).1.toOption.map
      (fun r => r.message)) = some (str "图片处理成功") := by
  refine ⟨by decide, by decide⟩

/-- C8 amended (corrected): with watermark rendering unavailable (always,
in this code), `addWatermark` passes the image through unchanged, and any
successful `ProcessImage` call — the watermark case included — returns
the ordinary success result with the generic message; the "watermark not
applied" outcome is only logged server-side, never surfaced in the
returned result. -/
theorem watermark_passthrough_not_surfaced (img : GoImage) (text : GoStr)
    (env : Env) (st : St) (req : ProcessorService.ProcessRequest)
    (res : ProcessorService.ProcessResult) (st' : St)
    (htext : text ≠ [])
    (hok : ProcessorService.processImage env st req = (.ok res, st')) :
    ProcessorService.addWatermark img text = .ok img ∧
    res.message = str "图片处理成功" :=
  ⟨by simp [ProcessorService.addWatermark, htext],
   (processImage_ok_shape env st req res st' hok).1⟩

/-- C8 witness: the concrete watermark run on the 4×2 sample image. -/
theorem watermark_passthrough_not_surfaced_witness :
    (str "hi" : GoStr) ≠ [] ∧
    ProcessorService.processImage sampleEnv stProc reqWatermark = (.ok c8res, c8st) ∧
    (ProcessorService.addWatermark ⟨4, 2⟩ (str "hi") = .ok ⟨4, 2⟩ ∧
     c8res.message = str "图片处理成功") :=
  ⟨by decide, by decide,
   watermark_passthrough_not_surfaced ⟨4, 2⟩ (str "hi") sampleEnv stProc reqWatermark c8res c8st
     (by decide) (by decide)⟩

/-- C10 (confirmed): the derived image's registry row copies `FileSize`
verbatim from the source row; it is never recomputed from the encoded
derived bytes. -/
theorem processed_filesize_copied_from_source (env : Env) (st : St)
    (req : ProcessorService.ProcessRequest) (res : ProcessorService.ProcessResult)
    (st' : St) (media : MediaFile)
    (hmedia : Repo.getByID st req.mediaID = some media)
    (hok : ProcessorService.processImage env st req = (.ok res, st')) :
    res.mediaFile.fileSize = media.fileSize := by
  obtain ⟨-, media', hmedia', hfs⟩ := processImage_ok_shape env st req res st' hok
  rw [hmedia] at hmedia'
  injection hmedia' with hmm
  subst hmm
  exact hfs

/-- C10 witness: compressing the 999-byte-registered source produces a
derived file whose stored bytes have length 2, yet whose row records
`FileSize = 999`, copied from the source. -/
theorem processed_filesize_copied_from_source_witness :
    Repo.getByID stProc reqCompress.mediaID = some mediaProcA ∧
    ProcessorService.processImage sampleEnv stProc reqCompress = (.ok c10res, c10st) ∧
    c10res.mediaFile.fileSize = mediaProcA.fileSize ∧
    mediaProcA.fileSize = 999 ∧
    diskRead c10st c10res.mediaFile.storagePath = some [4, 2] :=
  ⟨by decide, by decide,
   processed_filesize_copied_from_source sampleEnv stProc reqCompress c10res c10st mediaProcA
     (by decide) (by decide),
   by decide, by decide⟩
